import Mathlib

/-!
# Verification of the `syslogformat` formatting library

A shallow embedding of the `syslogformat` Python package
(`severity.py`, `facility.py`, `exceptions.py`, `helpers.py`, `formatter.py`)
together with proofs about the formatting pipeline.

Machine integers of the source are modelled as `Int` (Python integers are
unbounded, so no wrap-around is involved).  Code that raises an exception is
modelled with `Option`/`Except`.  Strings are modelled as Lean `String`
(a list of unicode characters, matching Python `str`).
-/

namespace Syslogformat

/-! ## Python `logging` module level constants (host collaborator) -/

namespace logging

def NOTSET : Int := 0

def DEBUG : Int := 10

def INFO : Int := 20

def WARNING : Int := 30

def ERROR : Int := 40

def CRITICAL : Int := 50

end logging

/-! ## `severity.py`

The constants are the `syslog` module severity codes re-exported by
`severity.py` (`EMERGENCY = syslog.LOG_EMERG` etc.). -/

namespace severity

def EMERGENCY : Int := 0

def ALERT : Int := 1

def CRITICAL : Int := 2

def ERROR : Int := 3

def WARNING : Int := 4

def NOTICE : Int := 5

def INFORMATIONAL : Int := 6

def DEBUG : Int := 7

end severity

/-- An upper bound entry of the severity table: either a finite integer bound
or `math.inf` (the unbounded terminal entry of `LOG_LEVEL_BOUND_SEVERITY`). -/
inductive LevelBound where
  | fin (b : Int)
  | inf
deriving DecidableEq

/-- `level_num <= level_bound` where the bound may be `math.inf`. -/
def LevelBound.leBound (levelNum : Int) : LevelBound → Bool
  | .fin b => decide (levelNum ≤ b)
  | .inf => true

/-- `severity.LOG_LEVEL_BOUND_SEVERITY`: ordered `(level_bound, severity)`
pairs, terminated by the unbounded `(inf, ALERT)` entry. -/
def LOG_LEVEL_BOUND_SEVERITY : List (LevelBound × Int) :=
  [(.fin logging.DEBUG, severity.DEBUG),
   (.fin logging.INFO, severity.INFORMATIONAL),
   (.fin logging.WARNING, severity.WARNING),
   (.fin logging.ERROR, severity.ERROR),
   (.fin logging.CRITICAL, severity.CRITICAL),
   (.inf, severity.ALERT)]

/-- The `for level_bound, severity in ...: if level_num <= level_bound: return severity`
loop of `log_level_severity`, as a recursion over the bound table. -/
def findSeverity (levelNum : Int) : List (LevelBound × Int) → Option Int
  | [] => none
  | (bound, sev) :: rest =>
    if LevelBound.leBound levelNum bound then some sev
    else findSeverity levelNum rest

/-- `severity.log_level_severity`: walk `LOG_LEVEL_BOUND_SEVERITY` in order and
return the severity of the first entry whose bound is `>= level_num`.
The `raise CodeShouldBeUnreachable` fall-through is modelled as `none`. -/
def log_level_severity (levelNum : Int) : Option Int :=
  findSeverity levelNum LOG_LEVEL_BOUND_SEVERITY

/-- Closed form of the severity walk, used by the proofs below. -/
def severityOf (l : Int) : Int :=
  if l ≤ 10 then 7
  else if l ≤ 20 then 6
  else if l ≤ 30 then 4
  else if l ≤ 40 then 3
  else if l ≤ 50 then 2
  else 1

theorem log_level_severity_eq (l : Int) :
    log_level_severity l = some (severityOf l) := by
  unfold log_level_severity LOG_LEVEL_BOUND_SEVERITY severityOf
  simp only [findSeverity, LevelBound.leBound, logging.DEBUG, logging.INFO,
    logging.WARNING, logging.ERROR, logging.CRITICAL, severity.DEBUG,
    severity.INFORMATIONAL, severity.WARNING, severity.ERROR,
    severity.CRITICAL, severity.ALERT, decide_eq_true_eq]
  split_ifs <;> rfl

theorem severityOf_pos (l : Int) : 1 ≤ severityOf l := by
  unfold severityOf
  split_ifs <;> omega

theorem severityOf_le_seven (l : Int) : severityOf l ≤ 7 := by
  unfold severityOf
  split_ifs <;> omega

/-! ## `facility.py` -/

namespace facility

def KERNEL : Int := 0

def USER : Int := 1

def LOCAL_0 : Int := 16

def LOCAL_7 : Int := 23

end facility

/-! ## `exceptions.py`

The exception classes that can escape the constructor.  `helpers.py` spells
the threshold error `InvalidLogLevel` at its raise site, while `exceptions.py`
declares `InvalidLogLevelThreshold`; the model uses the class that
`exceptions.py` actually declares (see the notes on claim C8). -/

inductive SyslogFormatError where
  | NonStandardSyslogFacility (facility : Int)
  | InvalidLogLevelThreshold (value : String)
deriving DecidableEq

/-! ## `helpers.py` -/

/-- A `Union[int, str]` log level (the `LogLevel` alias of `types.py`). -/
inductive LogLevel where
  | int (n : Int)
  | str (s : String)
deriving DecidableEq

/-- `helpers.get_level_name_mapping`: the level-name table of the host
`logging` module (`logging._nameToLevel` / `logging.getLevelNamesMapping()`,
identical contents on all supported Python versions). -/
def get_level_name_mapping : List (String × Int) :=
  [("CRITICAL", 50), ("FATAL", 50), ("ERROR", 40), ("WARN", 30),
   ("WARNING", 30), ("INFO", 20), ("DEBUG", 10), ("NOTSET", 0)]

/-- `helpers.normalize_log_level`: an integer is returned unchanged; a string
is looked up in the level-name mapping, and an unknown name raises the
threshold-invalid error carrying the offending value. -/
def normalize_log_level : LogLevel → Except SyslogFormatError Int
  | .int n => .ok n
  | .str s =>
    match get_level_name_mapping.find? (fun p => p.1 == s) with
    | some p => .ok p.2
    | none => .error (.InvalidLogLevelThreshold s)

/-- `helpers.get_syslog_pri_part`: `f"<{facility * 8 + log_level_severity(log_level)}>"`.
`none` propagates the (unreachable) severity fall-through. -/
def get_syslog_pri_part (logLevel : Int) (facility : Int) : Option String :=
  (log_level_severity logLevel).map
    (fun sev => "<" ++ toString (facility * 8 + sev) ++ ">")

theorem get_syslog_pri_part_eq (l fac : Int) :
    get_syslog_pri_part l fac =
      some ("<" ++ toString (fac * 8 + severityOf l) ++ ">") := by
  rw [get_syslog_pri_part, log_level_severity_eq]
  rfl

/-! ## Python string primitives used by `formatter.py`

`isSpace` is the character class of Python's `str` whitespace (the `\s` class
of the `re` module and the default strip set of `str.strip()`). -/

def pyWhitespace : List Char :=
  [' ', '\t', '\n', '\r', '\x0b', '\x0c',
   '\x1c', '\x1d', '\x1e', '\x1f', '\x85', '\xa0',
   '\u1680', '\u2000', '\u2001', '\u2002', '\u2003', '\u2004', '\u2005',
   '\u2006', '\u2007', '\u2008', '\u2009', '\u200a',
   '\u2028', '\u2029', '\u202f', '\u205f', '\u3000']

def isSpace (c : Char) : Bool := pyWhitespace.contains c

/-- Python `str.strip()`: drop leading and trailing whitespace. -/
def pyStrip (s : String) : String :=
  ⟨((s.data.dropWhile isSpace).reverse.dropWhile isSpace).reverse⟩

/-- The f-string padding `f"{s:<w}"`: left-justify to width `w` with spaces,
never truncating. -/
def pyLjust (s : String) (w : Nat) : String :=
  s ++ ⟨List.replicate (w - s.length) ' '⟩

/-- Python truthiness of an optional string (`None` and `""` are falsy). -/
def truthyStr : Option String → Bool
  | none => false
  | some s => !s.isEmpty

/-- Python truthiness of `record.exc_info`: a non-`None` exception-info tuple
is always truthy.  The payload string is the traceback text that the host
`Formatter.formatException` renders for the tuple. -/
def truthyInfo : Option String → Bool
  | none => false
  | some _ => true

/-! ## `LINE_BREAK_PATTERN` and `re.sub`

`formatter.LINE_BREAK_PATTERN = re.compile(r"(?:\r\n|\r|\n)\s*")`.
A match of this pattern is one newline character (`'\r'` or `'\n'`, with
`"\r\n"` merged into the same match) followed by the maximal run of
whitespace; since `\s` contains `'\r'` and `'\n'`, every character of a match
after the first is simply a whitespace character.  `re.sub` scans left to
right, replacing each non-overlapping leftmost match and never rescanning the
replacement text.  The scanner below implements exactly that: the `Bool`
state is `true` while inside the `\s*` tail of a match. -/

def lineBreakSubAux (t : List Char) : List Char → Bool → List Char
  | [], _ => []
  | c :: cs, true =>
    if isSpace c then lineBreakSubAux t cs true
    else c :: lineBreakSubAux t cs false
  | c :: cs, false =>
    if c = '\r' ∨ c = '\n' then t ++ lineBreakSubAux t cs true
    else c :: lineBreakSubAux t cs false

/-- `re.sub(LINE_BREAK_PATTERN, t, s)`. -/
def re_sub_line_break (t s : String) : String :=
  ⟨lineBreakSubAux t.data s.data false⟩

/-! ## `logging.LogRecord` (host collaborator)

Only the attributes read or written by `SyslogFormatter.format` are modelled.
`exc_info` carries the traceback text the host `formatException` would render
for the tuple (argument interpolation and traceback rendering belong to the
host `logging` machinery).  `message` is the attribute
`Formatter.format` itself assigns; its initial value is irrelevant because
`format` overwrites it before any read. -/

structure LogRecord where
  name : String
  levelno : Int
  levelname : String
  msg : String
  module : String
  funcName : String
  lineno : Int
  message : String
  exc_info : Option String
  exc_text : Option String
  stack_info : Option String
deriving DecidableEq

/-- `record.getMessage()`: renders `msg % args`.  The records modelled here
carry no `args`, for which `getMessage` returns `msg` itself. -/
def LogRecord.getMessage (r : LogRecord) : String := r.msg

/-- The attributes of `record.__dict__` that a percent-style format string may
reference (the documented LogRecord attributes among the modelled fields). -/
def recordAttrStr (r : LogRecord) : String → Option String
  | "name" => some r.name
  | "levelno" => some (toString r.levelno)
  | "levelname" => some r.levelname
  | "msg" => some r.msg
  | "module" => some r.module
  | "funcName" => some r.funcName
  | "lineno" => some (toString r.lineno)
  | "message" => some r.message
  | _ => none

/-- The host `logging.PercentStyle` rendering engine (external collaborator),
restricted to the `%(key)s` directives and `%%`: scan the format string and
substitute attributes via the lookup `attr`.  The `Nat` argument is recursion
fuel, always called with the length of the remaining format string (each step
consumes at least one character, so the fuel is never exhausted). -/
def percentRenderAux (attr : String → Option String) : Nat → List Char → List Char
  | 0, s => s
  | _ + 1, [] => []
  | fuel + 1, '%' :: '(' :: rest =>
    let key := rest.takeWhile (fun c => c != ')')
    match rest.dropWhile (fun c => c != ')') with
    | ')' :: 's' :: rest3 =>
      match attr ⟨key⟩ with
      | some v => v.data ++ percentRenderAux attr fuel rest3
      | none => '%' :: '(' :: percentRenderAux attr fuel rest
    | _ => '%' :: '(' :: percentRenderAux attr fuel rest
  | fuel + 1, '%' :: '%' :: rest => '%' :: percentRenderAux attr fuel rest
  | fuel + 1, c :: rest => c :: percentRenderAux attr fuel rest

def percentRender (fmt : String) (r : LogRecord) : String :=
  ⟨percentRenderAux (recordAttrStr r) fmt.data.length fmt.data⟩

/-! ## `formatter.py`: the `SyslogFormatter` class -/

/-- The state a constructed `SyslogFormatter` holds: the five attributes its
`__init__` assigns, plus the format string the base `logging.Formatter`
stores for `formatMessage` (`datefmt`, `style` and `defaults` are passed
through to the host base class and never read by the code under
verification). -/
structure SyslogFormatter where
  fmt : Option String
  _facility : Int
  _line_break_repl : Option String
  _detail_threshold : Int
  _prepend_level_name : Bool
  _custom_fmt : Bool
deriving DecidableEq

/-- `SyslogFormatter.__init__`.  Mirrors the source order: the facility check
runs first (`validate and facility not in range(24)`), then
`normalize_log_level` may raise while assigning `_detail_threshold`.
`_custom_fmt = fmt is not None`. -/
def SyslogFormatter.init (fmt : Option String) (validate : Bool)
    (facility : Int) (line_break_repl : Option String)
    (detail_threshold : LogLevel) (prepend_level_name : Bool) :
    Except SyslogFormatError SyslogFormatter :=
  if validate ∧ ¬(0 ≤ facility ∧ facility < 24) then
    .error (.NonStandardSyslogFacility facility)
  else
    match normalize_log_level detail_threshold with
    | .error e => .error e
    | .ok dt =>
      .ok { fmt := fmt
            _facility := facility
            _line_break_repl := line_break_repl
            _detail_threshold := dt
            _prepend_level_name := prepend_level_name
            _custom_fmt := fmt.isSome }

/-- The base `logging.Formatter.formatMessage`: render the stored format
string over the record.  With `fmt=None` the base class uses the default
percent format `"%(message)s"`, which renders to exactly `record.message`. -/
def SyslogFormatter.formatMessage (f : SyslogFormatter) (r : LogRecord) : String :=
  match f.fmt with
  | none => r.message
  | some t => percentRender t r

/-- The guard of the exception-rendering branch:
`record.exc_info and not record.exc_text`. -/
def excRenderNeeded (r : LogRecord) : Bool :=
  truthyInfo r.exc_info && !truthyStr r.exc_text

/-- `SyslogFormatter.format` up to (and excluding) the final line-break
substitution, returning the assembled string together with the mutated
record.  Each step mirrors one statement of the source. -/
def SyslogFormatter.assemble (f : SyslogFormatter) (r0 : LogRecord) :
    Option (String × LogRecord) :=
  -- record.message = record.getMessage()
  let r := { r0 with message := r0.getMessage }
  -- message = get_syslog_pri_part(record.levelno, self._facility)
  match get_syslog_pri_part r.levelno f._facility with
  | none => none
  | some pri =>
    let message := pri
    -- if not self._custom_fmt and self._prepend_level_name
    let message :=
      if f._custom_fmt = false ∧ f._prepend_level_name = true then
        message ++ pyLjust r.levelname 8 ++ "| "
      else message
    -- message += self.formatMessage(record)
    let message := message ++ f.formatMessage r
    -- if not self._custom_fmt and record.levelno >= self._detail_threshold
    let message :=
      if f._custom_fmt = false ∧ f._detail_threshold ≤ r.levelno then
        message ++ " | " ++ r.module ++ "." ++ r.funcName ++ "." ++ toString r.lineno
      else message
    -- if record.exc_info and not record.exc_text:
    --     record.exc_text = self.formatException(record.exc_info).strip()
    let r :=
      if excRenderNeeded r then
        { r with exc_text := some (pyStrip (r.exc_info.getD "")) }
      else r
    -- if record.exc_text: message += f"\n{record.exc_text}"
    let message :=
      if truthyStr r.exc_text then message ++ "\n" ++ r.exc_text.getD ""
      else message
    -- if record.stack_info: message += f"\n{self.formatStack(...).strip()}"
    -- (the base formatStack returns stack_info unchanged)
    let message :=
      if truthyStr r.stack_info then message ++ "\n" ++ pyStrip (r.stack_info.getD "")
      else message
    some (message, r)

/-- `SyslogFormatter.format`: assemble the message, then replace line breaks
unless `self._line_break_repl is None`. -/
def SyslogFormatter.format (f : SyslogFormatter) (r : LogRecord) :
    Option (String × LogRecord) :=
  match f.assemble r with
  | none => none
  | some (message, r1) =>
    match f._line_break_repl with
    | none => some (message, r1)
    | some t => some (re_sub_line_break t message, r1)

/-! ## Structural decomposition of `assemble`

Named pieces of the assembled string, used to state where each part appears
and under which condition it is non-empty. -/

/-- The record after the `record.message = record.getMessage()` assignment. -/
def msgRecord (r : LogRecord) : LogRecord := { r with message := r.getMessage }

/-- The record after the conditional `record.exc_text` cache write. -/
def cacheExc (r : LogRecord) : LogRecord :=
  if excRenderNeeded r then
    { r with exc_text := some (pyStrip (r.exc_info.getD "")) }
  else r

/-- The `<facility*8 + severity>` PRI piece at the start of the output. -/
def priPart (f : SyslogFormatter) (r : LogRecord) : String :=
  "<" ++ toString (f._facility * 8 + severityOf r.levelno) ++ ">"

/-- The level-name piece (empty when suppressed). -/
def levelNamePart (f : SyslogFormatter) (r : LogRecord) : String :=
  if f._custom_fmt = false ∧ f._prepend_level_name = true then
    pyLjust r.levelname 8 ++ "| "
  else ""

/-- The source-location detail piece (empty when suppressed). -/
def detailPart (f : SyslogFormatter) (r : LogRecord) : String :=
  if f._custom_fmt = false ∧ f._detail_threshold ≤ r.levelno then
    " | " ++ r.module ++ "." ++ r.funcName ++ "." ++ toString r.lineno
  else ""

/-- The exception-text piece, read from the (possibly freshly cached)
`exc_text` of the record. -/
def excPart (r : LogRecord) : String :=
  if truthyStr r.exc_text then "\n" ++ r.exc_text.getD "" else ""

/-- The stack-info piece. -/
def stackPart (r : LogRecord) : String :=
  if truthyStr r.stack_info then "\n" ++ pyStrip (r.stack_info.getD "") else ""

theorem assemble_closed (f : SyslogFormatter) (r : LogRecord) :
    f.assemble r = some
      (priPart f r ++ levelNamePart f r ++ f.formatMessage (msgRecord r) ++
         detailPart f r ++ excPart (cacheExc (msgRecord r)) ++ stackPart r,
       cacheExc (msgRecord r)) := by
  unfold SyslogFormatter.assemble
  simp only [get_syslog_pri_part_eq]
  simp only [msgRecord, cacheExc, priPart, levelNamePart, detailPart, excPart,
    stackPart, excRenderNeeded, truthyStr, truthyInfo]
  split_ifs <;>
    simp_all [String.append_assoc, String.append_empty, String.empty_append]

/-! ## Properties of the line-break substitution -/

theorem isSpace_cr : isSpace '\r' = true := by decide

theorem isSpace_lf : isSpace '\n' = true := by decide

/-- While inside the `\s*` tail of a match, the scanner consumes exactly the
maximal whitespace run and then continues in normal mode. -/
theorem subAux_skip (t : List Char) (cs : List Char) :
    ∃ w rest, cs = w ++ rest ∧ (∀ c ∈ w, isSpace c = true) ∧
      (∀ c, rest.head? = some c → isSpace c = false) ∧
      lineBreakSubAux t cs true = lineBreakSubAux t rest false := by
  induction cs with
  | nil => exact ⟨[], [], rfl, by simp, by simp, rfl⟩
  | cons c cs ih =>
    by_cases hc : isSpace c = true
    · obtain ⟨w, rest, hsplit, hw, hrest, heq⟩ := ih
      refine ⟨c :: w, rest, by simp [hsplit], ?_, hrest, ?_⟩
      · intro d hd
        rcases List.mem_cons.mp hd with rfl | hd
        · exact hc
        · exact hw d hd
      · simp [lineBreakSubAux, hc, heq]
    · refine ⟨[], c :: cs, rfl, by simp, ?_, ?_⟩
      · intro d hd
        simp only [List.head?_cons, Option.some.injEq] at hd
        subst hd
        exact eq_false_of_ne_true hc
      · have h1 : ¬(c = '\r' ∨ c = '\n') := by
          rintro (rfl | rfl)
          · exact hc isSpace_cr
          · exact hc isSpace_lf
        simp [lineBreakSubAux, hc, h1]

/-- Characters that start no match are copied verbatim: the substitution of a
string whose prefix contains no newline characters keeps that prefix. -/
theorem subAux_copy (t pre rest : List Char)
    (h : ∀ c ∈ pre, ¬(c = '\r' ∨ c = '\n')) :
    lineBreakSubAux t (pre ++ rest) false = pre ++ lineBreakSubAux t rest false := by
  induction pre with
  | nil => rfl
  | cons c pre ih =>
    have hc := h c (List.mem_cons_self c pre)
    simp [lineBreakSubAux, hc, ih (fun d hd => h d (List.mem_cons_of_mem c hd))]

/-- The specification of the line-break normalization, written from the spec's
words: scanning the assembled text, every run made of one newline sequence
(`"\r\n"`, `"\r"` or `"\n"`) followed by any (maximal) run of whitespace is
replaced by the replacement string `t`; all other characters are kept. -/
inductive SpecLineBreakReplacement (t : String) : List Char → List Char → Prop where
  | nil : SpecLineBreakReplacement t [] []
  | keep (c : Char) (cs out : List Char) : c ≠ '\r' → c ≠ '\n' →
      SpecLineBreakReplacement t cs out →
      SpecLineBreakReplacement t (c :: cs) (c :: out)
  | repl (nl w cs out : List Char) :
      nl = ['\r', '\n'] ∨ nl = ['\r'] ∨ nl = ['\n'] →
      (∀ c ∈ w, isSpace c = true) →
      (∀ c, cs.head? = some c → isSpace c = false) →
      SpecLineBreakReplacement t cs out →
      SpecLineBreakReplacement t (nl ++ (w ++ cs)) (t.data ++ out)

/-- The scanner (`re.sub` of `LINE_BREAK_PATTERN`) refines the declarative
replacement specification. -/
theorem subAux_refines (t : String) (s : List Char) :
    SpecLineBreakReplacement t s (lineBreakSubAux t.data s false) := by
  have main : ∀ n, ∀ cs : List Char, cs.length ≤ n →
      SpecLineBreakReplacement t cs (lineBreakSubAux t.data cs false) := by
    intro n
    induction n with
    | zero =>
      intro cs h
      obtain rfl := List.eq_nil_of_length_eq_zero (Nat.le_zero.mp h)
      exact .nil
    | succ n ih =>
      intro cs hlen
      match cs with
      | [] => exact .nil
      | c :: cs' =>
        by_cases hc : c = '\r' ∨ c = '\n'
        · obtain ⟨w, rest, hsplit, hw, hrest, heq⟩ := subAux_skip t.data cs'
          have hsub : lineBreakSubAux t.data (c :: cs') false =
              t.data ++ lineBreakSubAux t.data rest false := by
            simp [lineBreakSubAux, hc, heq]
          rw [hsub]
          have hlenrest : rest.length ≤ n := by
            have h1 : cs'.length ≤ n := by
              simpa using Nat.lt_succ_iff.mp (Nat.lt_of_lt_of_le (by simp) hlen)
            have h2 : rest.length ≤ cs'.length := by
              rw [hsplit, List.length_append]; omega
            omega
          have hnl : [c] = ['\r', '\n'] ∨ [c] = ['\r'] ∨ [c] = ['\n'] := by
            rcases hc with rfl | rfl
            · exact Or.inr (Or.inl rfl)
            · exact Or.inr (Or.inr rfl)
          have hrepl := SpecLineBreakReplacement.repl (t := t) [c] w rest
            (lineBreakSubAux t.data rest false) hnl hw hrest (ih rest hlenrest)
          rw [hsplit]
          exact hrepl
        · have h1 : c ≠ '\r' := fun h => hc (Or.inl h)
          have h2 : c ≠ '\n' := fun h => hc (Or.inr h)
          have hsub : lineBreakSubAux t.data (c :: cs') false =
              c :: lineBreakSubAux t.data cs' false := by
            simp [lineBreakSubAux, hc]
          rw [hsub]
          exact .keep c cs' _ h1 h2 (ih cs' (by simpa using hlen))
  exact main s.length s le_rfl

/-! ## Decimal renderings contain no line breaks (for the PRI prefix) -/

def noNL (s : String) : Bool := s.data.all (fun c => !(c == '\r' || c == '\n'))

set_option maxRecDepth 10000 in
theorem natRepr_noNL : ∀ n : Nat, n < 192 → noNL (Nat.repr n) = true := by decide

theorem int_toString_noNL (i : Int) (h0 : 0 ≤ i) (h1 : i < 192) :
    noNL (toString i) = true := by
  obtain ⟨n, rfl⟩ := Int.eq_ofNat_of_zero_le h0
  show noNL (Nat.repr n) = true
  exact natRepr_noNL n (by exact_mod_cast h1)

theorem noNL_mem {s : String} (h : noNL s = true) :
    ∀ c ∈ s.data, ¬(c = '\r' ∨ c = '\n') := by
  intro c hc
  have := List.all_eq_true.mp h c hc
  rintro (rfl | rfl) <;> simp at this

/-! ## Record-mutation bookkeeping lemmas -/

theorem msgRecord_levelno (r : LogRecord) : (msgRecord r).levelno = r.levelno := rfl

theorem msgRecord_levelname (r : LogRecord) : (msgRecord r).levelname = r.levelname := rfl

theorem msgRecord_message (r : LogRecord) : (msgRecord r).message = r.msg := rfl

theorem cacheExc_levelno (r : LogRecord) : (cacheExc r).levelno = r.levelno := by
  unfold cacheExc; split_ifs <;> rfl

theorem cacheExc_message (r : LogRecord) : (cacheExc r).message = r.message := by
  unfold cacheExc; split_ifs <;> rfl

theorem cacheExc_msg (r : LogRecord) : (cacheExc r).msg = r.msg := by
  unfold cacheExc; split_ifs <;> rfl

theorem cacheExc_exc_info (r : LogRecord) : (cacheExc r).exc_info = r.exc_info := by
  unfold cacheExc; split_ifs <;> rfl

theorem cacheExc_stack_info (r : LogRecord) : (cacheExc r).stack_info = r.stack_info := by
  unfold cacheExc; split_ifs <;> rfl

/-- The `exc_text` cache write changes no attribute a format string can read. -/
theorem recordAttrStr_cacheExc (r : LogRecord) (k : String) :
    recordAttrStr (cacheExc r) k = recordAttrStr r k := by
  unfold cacheExc
  split_ifs <;> rfl

/-- Setting `record.message` on a record that already satisfies
`message = msg` is the identity. -/
theorem msgRecord_eta (r : LogRecord) (h : r.message = r.msg) : msgRecord r = r := by
  cases r
  simp_all [msgRecord, LogRecord.getMessage]

/-- The `exc_text` cache write is idempotent: a second pass over the already
cached record changes nothing (re-rendering, when it happens at all, writes
the identical value back). -/
theorem cacheExc_idem (r : LogRecord) : cacheExc (cacheExc r) = cacheExc r := by
  unfold cacheExc excRenderNeeded truthyInfo truthyStr
  cases r with
  | mk name levelno levelname msg module funcName lineno message exc_info exc_text stack_info =>
    cases exc_info <;> cases exc_text <;> simp_all <;> split_ifs <;> simp_all

/-- `formatMessage` does not read `exc_text`: the cache write does not change
the rendered message body. -/
theorem formatMessage_cacheExc (f : SyslogFormatter) (r : LogRecord) :
    f.formatMessage (cacheExc r) = f.formatMessage r := by
  unfold SyslogFormatter.formatMessage
  cases f.fmt with
  | none => exact cacheExc_message r
  | some t =>
    unfold percentRender
    rw [funext (recordAttrStr_cacheExc r)]

/-- The record written back by `assemble` (and hence by `format`). -/
theorem assemble_record (f : SyslogFormatter) (r : LogRecord) :
    f.assemble r = some (((f.assemble r).getD ("", r)).1, cacheExc (msgRecord r)) := by
  rw [assemble_closed]
  rfl

/-- Running `assemble` again on the record produced by a first run assembles
the identical string and leaves the record unchanged. -/
theorem assemble_stable (f : SyslogFormatter) (r : LogRecord) :
    f.assemble (cacheExc (msgRecord r)) = f.assemble r := by
  have hmsg : msgRecord (cacheExc (msgRecord r)) = cacheExc (msgRecord r) :=
    msgRecord_eta _ (by rw [cacheExc_message, cacheExc_msg, msgRecord_message]; rfl)
  rw [assemble_closed, assemble_closed, hmsg, cacheExc_idem]
  have h1 : priPart f (cacheExc (msgRecord r)) = priPart f r := by
    unfold priPart
    rw [cacheExc_levelno, msgRecord_levelno]
  have h2 : levelNamePart f (cacheExc (msgRecord r)) = levelNamePart f r := by
    unfold levelNamePart
    rw [show (cacheExc (msgRecord r)).levelname = r.levelname by
      unfold cacheExc; split_ifs <;> rfl]
  have h3 : f.formatMessage (cacheExc (msgRecord r)) = f.formatMessage (msgRecord r) :=
    formatMessage_cacheExc f (msgRecord r)
  have h4 : detailPart f (cacheExc (msgRecord r)) = detailPart f r := by
    unfold detailPart
    rw [cacheExc_levelno, msgRecord_levelno,
      show (cacheExc (msgRecord r)).module = r.module by
        unfold cacheExc; split_ifs <;> rfl,
      show (cacheExc (msgRecord r)).funcName = r.funcName by
        unfold cacheExc; split_ifs <;> rfl,
      show (cacheExc (msgRecord r)).lineno = r.lineno by
        unfold cacheExc; split_ifs <;> rfl]
  have h5 : stackPart (cacheExc (msgRecord r)) = stackPart r := by
    unfold stackPart
    rw [cacheExc_stack_info]
    rfl
  rw [h1, h2, h3, h4, h5]

/-! ## Shared concrete sample inputs -/

/-- A `SyslogFormatter()` constructed with all-default arguments. -/
def sampleFormatter : SyslogFormatter :=
  { fmt := none
    _facility := 1
    _line_break_repl := some " --> "
    _detail_threshold := 30
    _prepend_level_name := true
    _custom_fmt := false }

/-- A plain info-level record with message `"bar"` from logger `"test"`. -/
def sampleRecord : LogRecord :=
  { name := "test"
    levelno := 20
    levelname := "INFO"
    msg := "bar"
    module := "mod"
    funcName := "f"
    lineno := 22
    message := ""
    exc_info := none
    exc_text := none
    stack_info := none }

/-! ## The claims -/

/-- C1, counterexample: the host error level is `logging.ERROR = 40`, yet
`log_level_severity 41` is the critical severity `2`, not the alert
severity `1` (levels in `(40, 50]` hit the `(logging.CRITICAL, CRITICAL)`
table entry). -/
theorem C1_counterexample :
    log_level_severity 41 = some severity.CRITICAL ∧
      ¬ log_level_severity 41 = some severity.ALERT := by
  constructor
  · decide
  · decide

/-- C1 (amended): the alert severity (1) is returned exactly for levels
strictly above the host critical level (50); levels strictly above the error
level (40) up to the critical level map to the critical severity (2). -/
theorem C1_severity_clamp (l : Int) :
    (50 < l → log_level_severity l = some severity.ALERT) ∧
      (40 < l → l ≤ 50 → log_level_severity l = some severity.CRITICAL) := by
  rw [log_level_severity_eq]
  unfold severityOf severity.ALERT severity.CRITICAL
  constructor
  · intro h
    split_ifs <;> first | rfl | omega
  · intro h1 h2
    split_ifs <;> first | rfl | omega

/-- C1, witness: the amended claim at levels 51 and 41. -/
theorem C1_witness :
    log_level_severity 51 = some severity.ALERT ∧
      log_level_severity 41 = some severity.CRITICAL :=
  ⟨(C1_severity_clamp 51).1 (by decide), (C1_severity_clamp 41).2 (by decide) (by decide)⟩

/-- C7: with validation on, constructing with facility `-1` or `25` raises
`NonStandardSyslogFacility` carrying the offending value; with validation off,
facility `25` is accepted, stored unchanged, and used as-is in the PRI
arithmetic (`25 * 8 + 6 = 206` for an info-level record). -/
theorem C7_facility_validation :
    SyslogFormatter.init none true (-1) (some " --> ") (.int logging.WARNING) true
        = .error (.NonStandardSyslogFacility (-1)) ∧
      SyslogFormatter.init none true 25 (some " --> ") (.int logging.WARNING) true
        = .error (.NonStandardSyslogFacility 25) ∧
      SyslogFormatter.init none false 25 (some " --> ") (.int logging.WARNING) true
        = .ok { sampleFormatter with _facility := 25 } ∧
      ({ sampleFormatter with _facility := 25 } : SyslogFormatter)._facility = 25 ∧
      get_syslog_pri_part sampleRecord.levelno 25
        = some ("<" ++ toString (25 * 8 + severity.INFORMATIONAL) ++ ">") ∧
      ({ sampleFormatter with _facility := 25 } : SyslogFormatter).format sampleRecord
        = some ("<206>INFO    | bar", msgRecord sampleRecord) := by
  refine ⟨rfl, rfl, rfl, rfl, ?_, rfl⟩
  rw [get_syslog_pri_part_eq]
  rfl

/-- C8: behaviour of threshold normalization as specified (and as the only
threshold error class declared in `exceptions.py` dictates): an unknown level
name fails with `InvalidLogLevelThreshold` carrying the offending value,
`"INFO"` normalizes to the integer info level, an integer is stored
unchanged.  Note the slip in the source: `helpers.py` does
`from .exceptions import InvalidLogLevel` and raises `InvalidLogLevel(level)`,
but `exceptions.py` declares no class of that name, so importing the package
raises `ImportError` before any construction can run; this theorem states the
behaviour of the intended (and documented) threshold-invalid error. -/
theorem C8_threshold_normalization :
    normalize_log_level (.str "NOTALEVEL")
        = .error (.InvalidLogLevelThreshold "NOTALEVEL") ∧
      SyslogFormatter.init none true 1 (some " --> ") (.str "NOTALEVEL") true
        = .error (.InvalidLogLevelThreshold "NOTALEVEL") ∧
      SyslogFormatter.init none true 1 (some " --> ") (.str "INFO") true
        = .ok { sampleFormatter with _detail_threshold := logging.INFO } ∧
      ({ sampleFormatter with _detail_threshold := logging.INFO }
          : SyslogFormatter)._detail_threshold = 20 ∧
      (∀ n : Int, SyslogFormatter.init none true 1 (some " --> ") (.int n) true
        = .ok { sampleFormatter with _detail_threshold := n }) := by
  refine ⟨rfl, rfl, rfl, rfl, ?_⟩
  intro n
  rfl

/-- C2, counterexample: a formatter constructed with all-default arguments
(`fmt=None`) formats an info record with message `"bar"` from logger
`"test"` to `<14>INFO    | bar` — the body is the rendered message alone;
the claimed default template `"{message} | {logger_name}"` would have
produced `<14>INFO    | bar | test`.  (The source passes `fmt=None` through
to the base `logging.Formatter`, whose default format is `"%(message)s"`;
the `"%(message)s | %(name)s"` default announced in the constructor's
docstring is never installed, and the package's own tests assert the
name-free output.) -/
theorem C2_counterexample :
    SyslogFormatter.init none true 1 (some " --> ") (.int logging.WARNING) true
        = .ok sampleFormatter ∧
      sampleFormatter.format sampleRecord
        = some ("<14>INFO    | bar", msgRecord sampleRecord) ∧
      ("<14>INFO    | bar" : String)
        ≠ "<14>INFO    | " ++ ("bar" ++ " | " ++ "test") := by
  exact ⟨rfl, rfl, by decide⟩

/-- C2 (amended): when no explicit output template is supplied
(`fmt is None`), the message body appended by `format` is exactly the
rendered message — the host default template `"%(message)s"` — with no
logger-name suffix. -/
theorem C2_default_template_body (f : SyslogFormatter) (r : LogRecord)
    (h : f.fmt = none) :
    f.formatMessage (msgRecord r) = r.getMessage ∧
      f.assemble r = some
        (priPart f r ++ levelNamePart f r ++ r.getMessage ++ detailPart f r ++
           excPart (cacheExc (msgRecord r)) ++ stackPart r,
         cacheExc (msgRecord r)) := by
  have h1 : f.formatMessage (msgRecord r) = r.getMessage := by
    unfold SyslogFormatter.formatMessage
    rw [h]
    rfl
  refine ⟨h1, ?_⟩
  rw [assemble_closed, h1]

/-- C2, witness: the amended claim evaluated on the all-default formatter and
the info record. -/
theorem C2_witness :
    sampleFormatter.assemble sampleRecord
      = some ("<14>INFO    | bar", msgRecord sampleRecord) :=
  ((C2_default_template_body sampleFormatter sampleRecord rfl).2).trans (by decide)

/-- A prefix without newline characters passes through the line-break
substitution unchanged, at the `String` level. -/
theorem re_sub_copy (t pre rest : String)
    (h : ∀ c ∈ pre.data, ¬(c = '\r' ∨ c = '\n')) :
    re_sub_line_break t (pre ++ rest) = pre ++ re_sub_line_break t rest := by
  unfold re_sub_line_break
  rw [show (pre ++ rest).data = pre.data ++ rest.data from String.data_append pre rest,
    subAux_copy t.data pre.data rest.data h]
  cases pre
  rfl

/-- C3: for every facility in `0..23` and every integer level, the formatted
line starts with `<`, the unpadded decimal rendering of
`facility * 8 + severity`, and `>`, where the severity is what
`log_level_severity` returns for the record's level. -/
theorem C3_pri_part (f : SyslogFormatter) (r : LogRecord)
    (h0 : 0 ≤ f._facility) (h1 : f._facility ≤ 23) :
    ∃ sev rest r1, log_level_severity r.levelno = some sev ∧
      f.format r
        = some ("<" ++ toString (f._facility * 8 + sev) ++ ">" ++ rest, r1) := by
  have hno : ∀ c ∈ (priPart f r).data, ¬(c = '\r' ∨ c = '\n') := by
    have hts : noNL (toString (f._facility * 8 + severityOf r.levelno)) = true := by
      have hp := severityOf_pos r.levelno
      have hq := severityOf_le_seven r.levelno
      exact int_toString_noNL _ (by omega) (by omega)
    intro c hc
    unfold priPart at hc
    rw [String.data_append, String.data_append] at hc
    rcases List.mem_append.mp hc with hc | hc
    · rcases List.mem_append.mp hc with hc | hc
      · simp only [show ("<" : String).data = ['<'] from rfl, List.mem_singleton] at hc
        subst hc
        rintro (h | h) <;> simp at h
      · exact noNL_mem hts c hc
    · simp only [show (">" : String).data = ['>'] from rfl, List.mem_singleton] at hc
      subst hc
      rintro (h | h) <;> simp at h
  have hassoc :
      priPart f r ++ levelNamePart f r ++ f.formatMessage (msgRecord r) ++
          detailPart f r ++ excPart (cacheExc (msgRecord r)) ++ stackPart r =
        priPart f r ++
          (levelNamePart f r ++ (f.formatMessage (msgRecord r) ++
            (detailPart f r ++ (excPart (cacheExc (msgRecord r)) ++ stackPart r)))) := by
    simp only [String.append_assoc]
  unfold SyslogFormatter.format
  rw [assemble_closed]
  cases hlb : f._line_break_repl with
  | none =>
    exact ⟨severityOf r.levelno,
      levelNamePart f r ++ (f.formatMessage (msgRecord r) ++
        (detailPart f r ++ (excPart (cacheExc (msgRecord r)) ++ stackPart r))),
      cacheExc (msgRecord r), log_level_severity_eq r.levelno, by rw [hassoc]; rfl⟩
  | some t =>
    refine ⟨severityOf r.levelno,
      re_sub_line_break t (levelNamePart f r ++ (f.formatMessage (msgRecord r) ++
        (detailPart f r ++ (excPart (cacheExc (msgRecord r)) ++ stackPart r)))),
      cacheExc (msgRecord r), log_level_severity_eq r.levelno, ?_⟩
    rw [hassoc]
    dsimp only
    rw [re_sub_copy t _ _ hno]
    rfl

/-- C3, witness: the PRI prefix of the default formatter on the info record
is `<14>` (`1 * 8 + 6`). -/
theorem C3_witness :
    ∃ sev rest r1, log_level_severity sampleRecord.levelno = some sev ∧
      sampleFormatter.format sampleRecord
        = some ("<" ++ toString (sampleFormatter._facility * 8 + sev) ++ ">" ++ rest,
            r1) :=
  C3_pri_part sampleFormatter sampleRecord (by decide) (by decide)

/-- `format` in terms of `assemble`: the final step applies the line-break
substitution exactly when a replacement string is configured. -/
theorem format_of_assemble (f : SyslogFormatter) (r : LogRecord) (a : String)
    (r1 : LogRecord) (h : f.assemble r = some (a, r1)) :
    f.format r = some
      ((match f._line_break_repl with
        | none => a
        | some t => re_sub_line_break t a), r1) := by
  unfold SyslogFormatter.format
  rw [h]
  cases f._line_break_repl <;> rfl

/-- C4: when `line_break_repl` is a string `t`, `format` returns the
assembled string with every run of one newline sequence plus trailing
whitespace replaced by `t` (stated both as the `re.sub` scanner and against
the declarative `SpecLineBreakReplacement` relation); when it is the
disabling `None`, `format` returns the assembled string unchanged. -/
theorem C4_line_break_replacement (f : SyslogFormatter) (r : LogRecord)
    (s : String) (r1 : LogRecord) (h : f.assemble r = some (s, r1)) :
    (f._line_break_repl = none → f.format r = some (s, r1)) ∧
      (∀ t, f._line_break_repl = some t →
        f.format r = some (re_sub_line_break t s, r1) ∧
          SpecLineBreakReplacement t s.data (re_sub_line_break t s).data) := by
  have hf := format_of_assemble f r s r1 h
  constructor
  · intro hn
    rw [hf, hn]
  · intro t ht
    rw [hf, ht]
    exact ⟨rfl, subAux_refines t s.data⟩

/-- C4, witness: the replacement on a record whose message contains
`"abc\n  xyz"`, with replacement `" --> "`. -/
theorem C4_witness :
    ({ sampleFormatter with _prepend_level_name := false } : SyslogFormatter).format
        { sampleRecord with msg := "abc\n  xyz" }
      = some ("<14>abc --> xyz",
          msgRecord { sampleRecord with msg := "abc\n  xyz" }) ∧
      SpecLineBreakReplacement " --> " ("<14>abc\n  xyz" : String).data
        ("<14>abc --> xyz" : String).data := by
  obtain ⟨-, h2⟩ := C4_line_break_replacement
    { sampleFormatter with _prepend_level_name := false }
    { sampleRecord with msg := "abc\n  xyz" } "<14>abc\n  xyz"
    (msgRecord { sampleRecord with msg := "abc\n  xyz" }) (by decide)
  obtain ⟨he, hs⟩ := h2 " --> " rfl
  have heval : re_sub_line_break " --> " "<14>abc\n  xyz" = "<14>abc --> xyz" := by
    decide
  constructor
  · rw [he, heval]
  · rw [← heval]
    exact hs

/-- The detail suffix is never the empty string. -/
theorem detail_string_ne_empty (m fn : String) (ln : Int) :
    (" | " ++ m ++ "." ++ fn ++ "." ++ toString ln) ≠ "" := by
  intro h
  have hlen := congrArg String.length h
  simp only [String.length_append] at hlen
  have h3 : (" | " : String).length = 3 := rfl
  have h0 : ("" : String).length = 0 := rfl
  omega

/-- The level-name piece is never the empty string. -/
theorem level_string_ne_empty (nm : String) : pyLjust nm 8 ++ "| " ≠ "" := by
  intro h
  have hlen := congrArg String.length h
  simp only [String.length_append] at hlen
  have h2 : ("| " : String).length = 2 := rfl
  have h0 : ("" : String).length = 0 := rfl
  omega

/-- C5: in the assembled output, the source-location suffix
`" | {module}.{funcName}.{lineno}"` occupies the slot after the message body,
and that slot holds the suffix exactly when `record.levelno` is at least the
detail threshold and no custom format is active; otherwise the slot is
empty. -/
theorem C5_detail_suffix_iff (f : SyslogFormatter) (r : LogRecord)
    (s : String) (r1 : LogRecord) (h : f.assemble r = some (s, r1)) :
    ∃ D, s = priPart f r ++ levelNamePart f r ++ f.formatMessage (msgRecord r) ++
        D ++ excPart (cacheExc (msgRecord r)) ++ stackPart r ∧
      (D = " | " ++ r.module ++ "." ++ r.funcName ++ "." ++ toString r.lineno ↔
        (f._custom_fmt = false ∧ f._detail_threshold ≤ r.levelno)) ∧
      (D = "" ↔ ¬(f._custom_fmt = false ∧ f._detail_threshold ≤ r.levelno)) := by
  rw [assemble_closed] at h
  simp only [Option.some.injEq, Prod.mk.injEq] at h
  obtain ⟨hs, -⟩ := h
  refine ⟨detailPart f r, hs.symm, ?_, ?_⟩
  · unfold detailPart
    by_cases hcond : f._custom_fmt = false ∧ f._detail_threshold ≤ r.levelno
    · rw [if_pos hcond]
      exact ⟨fun _ => hcond, fun _ => rfl⟩
    · rw [if_neg hcond]
      exact ⟨fun habs => absurd habs.symm (detail_string_ne_empty r.module r.funcName r.lineno),
        fun hc => absurd hc hcond⟩
  · unfold detailPart
    by_cases hcond : f._custom_fmt = false ∧ f._detail_threshold ≤ r.levelno
    · rw [if_pos hcond]
      exact ⟨fun habs => absurd habs (detail_string_ne_empty r.module r.funcName r.lineno),
        fun hnc => absurd hcond hnc⟩
    · rw [if_neg hcond]
      exact ⟨fun _ => hcond, fun _ => rfl⟩

/-- A warning-level record (at the default detail threshold). -/
def sampleWarnRecord : LogRecord :=
  { sampleRecord with levelno := 30, levelname := "WARNING", msg := "baz" }

/-- C5, witness: on a warning record (level 30 = threshold) the detail slot of
the assembled string `<12>WARNING | baz | mod.f.22` holds the suffix. -/
theorem C5_witness :
    ∃ D, ("<12>WARNING | baz | mod.f.22" : String)
        = priPart sampleFormatter sampleWarnRecord ++
            levelNamePart sampleFormatter sampleWarnRecord ++
            sampleFormatter.formatMessage (msgRecord sampleWarnRecord) ++ D ++
            excPart (cacheExc (msgRecord sampleWarnRecord)) ++
            stackPart sampleWarnRecord ∧
      (D = " | " ++ sampleWarnRecord.module ++ "." ++ sampleWarnRecord.funcName ++
          "." ++ toString sampleWarnRecord.lineno ↔
        (sampleFormatter._custom_fmt = false ∧
          sampleFormatter._detail_threshold ≤ sampleWarnRecord.levelno)) ∧
      (D = "" ↔ ¬(sampleFormatter._custom_fmt = false ∧
        sampleFormatter._detail_threshold ≤ sampleWarnRecord.levelno)) :=
  C5_detail_suffix_iff sampleFormatter sampleWarnRecord
    "<12>WARNING | baz | mod.f.22" (cacheExc (msgRecord sampleWarnRecord))
    (by decide)

/-- The padded level-name field has width `max 8 (length of the name)`. -/
theorem pyLjust_length (s : String) (w : Nat) :
    (pyLjust s w).length = max w s.length := by
  unfold pyLjust
  simp only [String.length_append, String.length_mk, List.length_replicate]
  omega

/-- C6, counterexample: with a 9-character level name the field before the
`|` separator is 9 characters wide, not 8 — the f-string `f"{levelname:<8}"`
pads but never truncates, so the width is not constant for names longer than
the padding width. -/
theorem C6_counterexample :
    ({ sampleFormatter with _detail_threshold := 100 } : SyslogFormatter).format
        { sampleRecord with levelname := "CRITICAL!", msg := "hi" }
      = some ("<14>" ++ pyLjust "CRITICAL!" 8 ++ "| " ++ "hi",
          msgRecord { sampleRecord with levelname := "CRITICAL!", msg := "hi" }) ∧
      (pyLjust "CRITICAL!" 8).length = 9 ∧ (pyLjust "CRITICAL!" 8).length ≠ 8 := by
  exact ⟨by decide, by decide, by decide⟩

/-- C6 (amended): the level-name slot right after the PRI part holds
`f"{levelname:<8}| "` exactly when `prepend_level_name` is true and no custom
format is active (otherwise it is empty), and the name field's width is
`max 8 (length of the name)` — exactly 8 whenever the level name has at most
8 characters, which is the case for every standard level name. -/
theorem C6_level_name_field (f : SyslogFormatter) (r : LogRecord)
    (s : String) (r1 : LogRecord) (h : f.assemble r = some (s, r1)) :
    ∃ P, s = priPart f r ++ P ++
        (f.formatMessage (msgRecord r) ++ detailPart f r ++
          excPart (cacheExc (msgRecord r)) ++ stackPart r) ∧
      (P = pyLjust r.levelname 8 ++ "| " ↔
        (f._custom_fmt = false ∧ f._prepend_level_name = true)) ∧
      (P = "" ↔ ¬(f._custom_fmt = false ∧ f._prepend_level_name = true)) ∧
      (pyLjust r.levelname 8).length = max 8 r.levelname.length ∧
      (r.levelname.length ≤ 8 → (pyLjust r.levelname 8).length = 8) := by
  rw [assemble_closed] at h
  simp only [Option.some.injEq, Prod.mk.injEq] at h
  obtain ⟨hs, -⟩ := h
  subst hs
  refine ⟨levelNamePart f r, by simp only [String.append_assoc], ?_, ?_,
    pyLjust_length r.levelname 8, ?_⟩
  · unfold levelNamePart
    by_cases hcond : f._custom_fmt = false ∧ f._prepend_level_name = true
    · rw [if_pos hcond]
      exact ⟨fun _ => hcond, fun _ => rfl⟩
    · rw [if_neg hcond]
      exact ⟨fun habs => absurd habs.symm (level_string_ne_empty r.levelname),
        fun hc => absurd hc hcond⟩
  · unfold levelNamePart
    by_cases hcond : f._custom_fmt = false ∧ f._prepend_level_name = true
    · rw [if_pos hcond]
      exact ⟨fun habs => absurd habs (level_string_ne_empty r.levelname),
        fun hnc => absurd hcond hnc⟩
    · rw [if_neg hcond]
      exact ⟨fun _ => hcond, fun _ => rfl⟩
  · intro hle
    rw [pyLjust_length r.levelname 8]
    omega

/-- C6, witness: the amended claim on the default formatter and the info
record (`"INFO"` has 4 ≤ 8 characters, so the field is exactly 8 wide). -/
theorem C6_witness :
    ∃ P, ("<14>INFO    | bar" : String) = priPart sampleFormatter sampleRecord ++ P ++
        (sampleFormatter.formatMessage (msgRecord sampleRecord) ++
          detailPart sampleFormatter sampleRecord ++
          excPart (cacheExc (msgRecord sampleRecord)) ++ stackPart sampleRecord) ∧
      (P = pyLjust sampleRecord.levelname 8 ++ "| " ↔
        (sampleFormatter._custom_fmt = false ∧
          sampleFormatter._prepend_level_name = true)) ∧
      (P = "" ↔ ¬(sampleFormatter._custom_fmt = false ∧
        sampleFormatter._prepend_level_name = true)) ∧
      (pyLjust sampleRecord.levelname 8).length = max 8 sampleRecord.levelname.length ∧
      (sampleRecord.levelname.length ≤ 8 →
        (pyLjust sampleRecord.levelname 8).length = 8) :=
  C6_level_name_field sampleFormatter sampleRecord "<14>INFO    | bar"
    (cacheExc (msgRecord sampleRecord)) (by decide)

/-- C9: formatting the record returned by a first `format` call yields the
identical output string and leaves the record unchanged; the first call wrote
the stripped rendered exception text into the `exc_text` cache (when the
render guard fired), and on a record holding a non-empty cache the
re-rendering guard is off, so the second call reuses the cached value. -/
theorem C9_format_idempotent (f : SyslogFormatter) (r : LogRecord)
    (s : String) (r1 : LogRecord) (h : f.format r = some (s, r1)) :
    f.format r1 = some (s, r1) ∧
      r1.exc_text = (if excRenderNeeded (msgRecord r) then
        some (pyStrip (r.exc_info.getD "")) else r.exc_text) ∧
      (truthyStr r1.exc_text = true → excRenderNeeded r1 = false) := by
  have ha := assemble_closed f r
  have hf := format_of_assemble f r _ _ ha
  have h' := hf.symm.trans h
  simp only [Option.some.injEq, Prod.mk.injEq] at h'
  obtain ⟨hs, hr1⟩ := h'
  subst hr1
  subst hs
  refine ⟨?_, ?_, ?_⟩
  · exact format_of_assemble f _ _ _ ((assemble_stable f r).trans ha)
  · unfold cacheExc
    split_ifs <;> rfl
  · intro htruthy
    unfold excRenderNeeded
    rw [htruthy]
    simp

/-- An error-level record carrying exception info (the payload is the
traceback text the host would render for it). -/
def sampleExcRecord : LogRecord :=
  { sampleRecord with
    levelno := 40
    levelname := "ERROR"
    msg := "oh no"
    exc_info := some "Traceback:\n  boom\nValueError: bad\n" }

/-- The record after a first `format` of `sampleExcRecord`: the message is
rendered and the stripped exception text is cached. -/
def sampleExcRecordCached : LogRecord :=
  { sampleExcRecord with
    message := "oh no"
    exc_text := some "Traceback:\n  boom\nValueError: bad" }

/-- C9, witness: the idempotence claim evaluated on the exception record. -/
theorem C9_witness :
    sampleFormatter.format sampleExcRecordCached
        = some ("<11>ERROR   | oh no | mod.f.22 --> Traceback: --> boom --> ValueError: bad",
            sampleExcRecordCached) ∧
      sampleExcRecordCached.exc_text
        = (if excRenderNeeded (msgRecord sampleExcRecord) then
            some (pyStrip (sampleExcRecord.exc_info.getD ""))
          else sampleExcRecord.exc_text) ∧
      (truthyStr sampleExcRecordCached.exc_text = true →
        excRenderNeeded sampleExcRecordCached = false) :=
  C9_format_idempotent sampleFormatter sampleExcRecord
    "<11>ERROR   | oh no | mod.f.22 --> Traceback: --> boom --> ValueError: bad"
    sampleExcRecordCached (by decide)

/-- C10, counterexample: on a plain record, `format` also writes the rendered
message into `record.message` — a record mutation that is not the
exception-text cache write (the cache field is untouched here). -/
theorem C10_counterexample :
    sampleFormatter.format sampleRecord
        = some ("<14>INFO    | bar", msgRecord sampleRecord) ∧
      (msgRecord sampleRecord).message ≠ sampleRecord.message ∧
      (msgRecord sampleRecord).exc_text = sampleRecord.exc_text := by
  exact ⟨rfl, by decide, rfl⟩

/-- C10 (amended): `format` mutates nothing on the formatter itself (the
model's formatter state is immutable by construction); the record mutations
are exactly the write of the rendered message into `record.message` and the
conditional exception-text cache write into `record.exc_text` — every other
field of the returned record equals the corresponding input field. -/
theorem C10_record_frame (f : SyslogFormatter) (r : LogRecord)
    (s : String) (r1 : LogRecord) (h : f.format r = some (s, r1)) :
    r1 = { r with
      message := r.getMessage
      exc_text := if excRenderNeeded (msgRecord r) then
        some (pyStrip (r.exc_info.getD "")) else r.exc_text } := by
  have hf := format_of_assemble f r _ _ (assemble_closed f r)
  have h' := hf.symm.trans h
  simp only [Option.some.injEq, Prod.mk.injEq] at h'
  obtain ⟨-, hr1⟩ := h'
  subst hr1
  unfold cacheExc
  split_ifs <;> rfl

/-- C10, witness: the frame condition evaluated on the info record. -/
theorem C10_witness :
    msgRecord sampleRecord = { sampleRecord with
      message := sampleRecord.getMessage
      exc_text := if excRenderNeeded (msgRecord sampleRecord) then
        some (pyStrip (sampleRecord.exc_info.getD ""))
      else sampleRecord.exc_text } :=
  C10_record_frame sampleFormatter sampleRecord "<14>INFO    | bar"
    (msgRecord sampleRecord) (by decide)

end Syslogformat
